import Mathlib

/-!
Verification of the universal image loader of brainfungames.com.

The script consists of a path rewriting function fixImagePath (present in
two variants: the one in src/js/universal-image-loader.js and an older one
in an unnamed source file) plus a DOM scanning loop loadAllImages.

JS strings are modelled as lists of characters; the location of the current
document is modelled by its list of directory segments (the filename having
been removed), exactly as getFileLocation computes it in the source.
-/

/-- Character list of a string literal, the model of a JS string value. -/
def str (s : String) : List Char := s.data

/-- First-occurrence index of a segment name in the location segments,
minus one when absent.  This models both the scanning loop of
universal-image-loader.js (which records the first index where
dirParts[i] equals the name) and Array.prototype.indexOf used by the
unnamed variant. -/
def firstIdx (name : String) : List String → Int
  | [] => -1
  | p :: ps =>
    if p = name then 0
    else if firstIdx name ps = -1 then -1 else firstIdx name ps + 1

/-- Model of the boolean isInExplore of fixImagePath: exploreIndex >= 0. -/
def isInExplore (parts : List String) : Bool :=
  decide (0 ≤ firstIdx "explore" parts)

/-- Model of isInExploreGame: isInExplore and gameIndex > exploreIndex. -/
def isInExploreGame (parts : List String) : Bool :=
  isInExplore parts && decide (firstIdx "explore" parts < firstIdx "game" parts)

/-- Model of isInRootGame: gameIndex >= 0 and not isInExplore. -/
def isInRootGame (parts : List String) : Bool :=
  decide (0 ≤ firstIdx "game" parts) && !isInExplore parts

/-- Model of path.replace applied with an anchored pattern that removes one
redundant leading images/ segment. -/
def stripImages (path : List Char) : List Char :=
  if (str "images/").isPrefixOf path then path.drop 7 else path

/-- Absolute branch of fixImagePath, entered once the leading separator has
been removed from the path. -/
def absoluteCase (parts : List String) (path : List Char) : List Char :=
  if isInExploreGame parts then str "../../images/" ++ stripImages path
  else if isInExplore parts then str "images/" ++ stripImages path
  else if isInRootGame parts then str "../explore/images/" ++ stripImages path
  else str "explore/images/" ++ stripImages path

/-- Bare relative branch of fixImagePath, entered after a leading ./ has
been removed from the path. -/
def bareCase (parts : List String) (path : List Char) : List Char :=
  if !(str "../").isPrefixOf path && !(str "images/").isPrefixOf path then
    if isInExplore parts && !isInExploreGame parts then str "images/" ++ path
    else if isInExploreGame parts then str "../../images/" ++ path
    else path
  else path

/-- Model of fixImagePath from src/js/universal-image-loader.js.  The
document location enters through its directory segment list. -/
def fixImagePath (parts : List String) (originalPath : List Char) : List Char :=
  if (str "http://").isPrefixOf originalPath
      || (str "https://").isPrefixOf originalPath then
    originalPath
  else if (str "/").isPrefixOf originalPath then
    absoluteCase parts (originalPath.drop 1)
  else if (str "../").isPrefixOf originalPath then
    originalPath
  else
    bareCase parts
      (if (str "./").isPrefixOf originalPath then originalPath.drop 2
       else originalPath)

/-- Model of Array.prototype.join with separator a single slash. -/
def joinParts : List String → List Char
  | [] => []
  | [p] => p.data
  | p :: q :: rest => p.data ++ '/' :: joinParts (q :: rest)

/-- Model of String.prototype.replace applied globally with a pattern that
collapses every run of slashes into a single slash. -/
def collapseSlashes : List Char → List Char
  | [] => []
  | [c] => [c]
  | c :: d :: rest =>
    if c = '/' ∧ d = '/' then collapseSlashes (d :: rest)
    else c :: collapseSlashes (d :: rest)

namespace Part000

/-- Model of fixImagePath from the unnamed source file (src/unnamed/part_000). -/
def fixImagePath (parts : List String) (path0 : List Char) : List Char :=
  if (str "http://").isPrefixOf path0 || (str "https://").isPrefixOf path0 then
    path0
  else if (str "/").isPrefixOf path0 then
    let path := path0.drop 1
    let exploreIndex := firstIdx "explore" parts
    let gameIndex := firstIdx "game" parts
    let inExplore := decide (0 ≤ exploreIndex)
    let inGame := decide (0 ≤ gameIndex)
    if inExplore && inGame then str "../../" ++ path
    else if inExplore then path
    else if inGame then
      if (str "images/").isPrefixOf path then str "../explore/" ++ path
      else str "../" ++ path
    else
      if (str "images/").isPrefixOf path then str "explore/" ++ path
      else path
  else if (str "../").isPrefixOf path0 then path0
  else
    let path := if (str "./").isPrefixOf path0 then path0.drop 2 else path0
    let newPath := collapseSlashes (joinParts parts ++ '/' :: path)
    if (str "/").isPrefixOf newPath then newPath.drop 1 else newPath

end Part000

/-- Model of an img element: the data-load attribute, the data-loaded
attribute, the src attribute and the three inline style properties touched
by the loader.  A missing attribute or style is none. -/
structure Img where
  dataLoad : Option (List Char)
  dataLoaded : Option (List Char)
  src : Option (List Char)
  display : Option (List Char)
  visibility : Option (List Char)
  opacity : Option (List Char)
deriving DecidableEq

/-- Body of the forEach callback of loadAllImages for one element: skip
elements already flagged loaded, skip a missing or empty data-load value,
otherwise show the element, assign the fixed path as src and set the
loaded flag. -/
def processImg (parts : List String) (img : Img) : Img :=
  if img.dataLoaded = some (str "true") then img
  else
    match img.dataLoad with
    | none => img
    | some p =>
      if p = [] then img
      else
        { img with
          display := some (str "block")
          visibility := some (str "visible")
          opacity := some (str "1")
          src := some (fixImagePath parts p)
          dataLoaded := some (str "true") }

/-- Action of one loadAllImages pass on one document element: elements
without the data-load attribute are not selected by the query and stay
untouched. -/
def loadOne (parts : List String) (img : Img) : Img :=
  if img.dataLoad.isSome then processImg parts img else img

/-- Model of one run of loadAllImages over the document element list. -/
def loadAllImages (parts : List String) (doc : List Img) : List Img :=
  doc.map (loadOne parts)

/-- Source assignments performed by one invocation of the onerror handler,
given the declared path and the path whose load failed. -/
def onError (dataLoadPath fixedPath : List Char) : List (List Char) :=
  if dataLoadPath ≠ fixedPath ∧ (str "http").isPrefixOf dataLoadPath = false then
    [dataLoadPath]
  else if (str "/images/").isPrefixOf dataLoadPath = true then
    if str "explore" ++ dataLoadPath = fixedPath then []
    else [str "explore" ++ dataLoadPath]
  else []


/-- Executable containment of a pattern as a contiguous substring. -/
def containsSub (pat : List Char) : List Char → Bool
  | [] => pat.isPrefixOf []
  | c :: cs => pat.isPrefixOf (c :: cs) || containsSub pat cs

theorem isPrefixOf_iff (l1 l2 : List Char) :
    l1.isPrefixOf l2 = true ↔ ∃ t, l1 ++ t = l2 := by
  induction l1 generalizing l2 with
  | nil => simp [List.isPrefixOf]
  | cons a as ih =>
    cases l2 with
    | nil =>
      constructor
      · intro h; exact absurd h (by simp [List.isPrefixOf])
      · rintro ⟨t, ht⟩; exact absurd ht (by simp)
    | cons b bs =>
      simp only [List.isPrefixOf, Bool.and_eq_true, beq_iff_eq]
      constructor
      · rintro ⟨rfl, h2⟩
        obtain ⟨t, rfl⟩ := (ih bs).mp h2
        exact ⟨t, rfl⟩
      · rintro ⟨t, ht⟩
        injection ht with h1 h2
        exact ⟨h1, (ih bs).mpr ⟨t, h2⟩⟩

theorem containsSub_of_startsWith (pat l : List Char)
    (h : pat.isPrefixOf l = true) : containsSub pat l = true := by
  cases l with
  | nil => simp only [containsSub]; exact h
  | cons c cs => simp [containsSub, h]

theorem containsSub_suffix (pat l1 l2 : List Char) (hs : l1 <:+ l2)
    (h : containsSub pat l1 = true) : containsSub pat l2 = true := by
  induction l2 with
  | nil =>
    rw [List.suffix_nil] at hs
    subst hs; exact h
  | cons c cs ih =>
    rcases List.suffix_cons_iff.mp hs with h1 | h1
    · subst h1; exact h
    · simp [containsSub, ih h1]

theorem containsSub_append (pat xs ys : List Char)
    (h : containsSub pat (xs ++ ys) = true) :
    containsSub pat xs = true ∨ containsSub pat ys = true ∨
      ∃ k, 0 < k ∧ k < pat.length ∧ pat.take k <:+ xs ∧ pat.drop k <+: ys := by
  induction xs with
  | nil => exact Or.inr (Or.inl (by simpa using h))
  | cons x xs ih =>
    rw [List.cons_append] at h
    have h' : pat.isPrefixOf (x :: (xs ++ ys)) = true
        ∨ containsSub pat (xs ++ ys) = true := by
      simpa [containsSub, Bool.or_eq_true] using h
    rcases h' with hp | hc
    · obtain ⟨t, ht⟩ := (isPrefixOf_iff _ _).mp hp
      rw [show x :: (xs ++ ys) = (x :: xs) ++ ys from rfl] at ht
      by_cases hlen : pat.length ≤ (x :: xs).length
      · left
        have htake : pat = (x :: xs).take pat.length := by
          have h1 : ((x :: xs) ++ ys).take pat.length = (x :: xs).take pat.length :=
            List.take_append_of_le_length hlen
          have h2 : (pat ++ t).take pat.length = pat := by
            rw [List.take_append_of_le_length (Nat.le_refl _), List.take_length]
          rw [← ht, h2] at h1
          exact h1
        refine containsSub_of_startsWith _ _ ((isPrefixOf_iff _ _).mpr ⟨(x :: xs).drop pat.length, ?_⟩)
        calc pat ++ (x :: xs).drop pat.length
            = (x :: xs).take pat.length ++ (x :: xs).drop pat.length := by rw [← htake]
          _ = x :: xs := List.take_append_drop _ _
      · right; right
        push_neg at hlen
        refine ⟨(x :: xs).length, by simp, hlen, ?_, ?_⟩
        · have htake : pat.take (x :: xs).length = x :: xs := by
            have h1 := congrArg (List.take (x :: xs).length) ht
            rw [List.take_append_of_le_length (Nat.le_of_lt hlen),
              List.take_append_of_le_length (Nat.le_refl _), List.take_length] at h1
            exact h1
          rw [htake]
        · have hdrop : pat.drop (x :: xs).length ++ t = ys := by
            have h1 := congrArg (List.drop (x :: xs).length) ht
            rw [List.drop_append_eq_append_drop, List.drop_append_eq_append_drop,
              List.drop_length, Nat.sub_self, List.drop_zero, List.nil_append] at h1
            rw [show (x :: xs).length - pat.length = 0 from
              Nat.sub_eq_zero_of_le (Nat.le_of_lt hlen), List.drop_zero] at h1
            exact h1
          exact ⟨t, hdrop⟩
    · rcases ih hc with h1 | h1 | ⟨k, hk0, hklt, hsfx, hpre⟩
      · left; simp [containsSub, h1]
      · right; left; exact h1
      · exact Or.inr (Or.inr ⟨k, hk0, hklt, hsfx.trans (List.suffix_cons x xs), hpre⟩)

theorem stripImages_suffix (rest : List Char) : stripImages rest <:+ rest := by
  unfold stripImages
  split
  · exact List.drop_suffix 7 rest
  · exact List.suffix_refl rest

theorem firstIdx_neg_one_le (name : String) (l : List String) :
    -1 ≤ firstIdx name l := by
  induction l with
  | nil => simp [firstIdx]
  | cons p ps ih =>
    simp only [firstIdx]
    split
    · omega
    · split
      · omega
      · omega

theorem firstIdx_nonneg (name : String) (l : List String) :
    0 ≤ firstIdx name l ↔ name ∈ l := by
  induction l with
  | nil => simp [firstIdx]
  | cons p ps ih =>
    simp only [firstIdx, List.mem_cons]
    by_cases hp : p = name
    · simp [hp]
    · rw [if_neg hp]
      by_cases hr : firstIdx name ps = -1
      · rw [if_pos hr]
        constructor
        · intro h; omega
        · rintro (h | h)
          · exact absurd h.symm hp
          · have := ih.mpr h; omega
      · rw [if_neg hr]
        have h1 := firstIdx_neg_one_le name ps
        constructor
        · intro _; right; exact ih.mp (by omega)
        · intro _; omega

theorem isPrefixOf_append_self (p t : List Char) : p.isPrefixOf (p ++ t) = true := by
  induction p with
  | nil => simp
  | cons a as ih => simp [List.isPrefixOf_cons₂, ih]

theorem fixImagePath_slash (parts : List String) (rest : List Char) :
    fixImagePath parts ('/' :: rest) = absoluteCase parts rest := by
  unfold fixImagePath
  rw [show ((str "http://").isPrefixOf ('/' :: rest)
      || (str "https://").isPrefixOf ('/' :: rest)) = false from by rfl]
  rw [show (str "/").isPrefixOf ('/' :: rest) = true from
    isPrefixOf_append_self (str "/") rest]
  simp

theorem fixImagePath_http (parts : List String) (t : List Char) :
    fixImagePath parts (str "http://" ++ t) = str "http://" ++ t := by
  unfold fixImagePath
  rw [isPrefixOf_append_self (str "http://") t]
  simp

theorem fixImagePath_https (parts : List String) (t : List Char) :
    fixImagePath parts (str "https://" ++ t) = str "https://" ++ t := by
  unfold fixImagePath
  rw [isPrefixOf_append_self (str "https://") t]
  rw [show (str "http://").isPrefixOf (str "https://" ++ t) = false from by rfl]
  simp

theorem fixImagePath_dotdot (parts : List String) (t : List Char) :
    fixImagePath parts (str "../" ++ t) = str "../" ++ t := by
  unfold fixImagePath
  rw [isPrefixOf_append_self (str "../") t]
  rw [show (str "http://").isPrefixOf (str "../" ++ t) = false from by rfl]
  rw [show (str "https://").isPrefixOf (str "../" ++ t) = false from by rfl]
  rw [show (str "/").isPrefixOf (str "../" ++ t) = false from by rfl]
  simp

theorem part000_http (parts : List String) (t : List Char) :
    Part000.fixImagePath parts (str "http://" ++ t) = str "http://" ++ t := by
  unfold Part000.fixImagePath
  rw [isPrefixOf_append_self (str "http://") t]
  simp

theorem part000_https (parts : List String) (t : List Char) :
    Part000.fixImagePath parts (str "https://" ++ t) = str "https://" ++ t := by
  unfold Part000.fixImagePath
  rw [isPrefixOf_append_self (str "https://") t]
  rw [show (str "http://").isPrefixOf (str "https://" ++ t) = false from by rfl]
  simp

theorem part000_dotdot (parts : List String) (t : List Char) :
    Part000.fixImagePath parts (str "../" ++ t) = str "../" ++ t := by
  unfold Part000.fixImagePath
  rw [isPrefixOf_append_self (str "../") t]
  rw [show (str "http://").isPrefixOf (str "../" ++ t) = false from by rfl]
  rw [show (str "https://").isPrefixOf (str "../" ++ t) = false from by rfl]
  rw [show (str "/").isPrefixOf (str "../" ++ t) = false from by rfl]
  simp

theorem noDup_helper (q rest : List Char)
    (hq : containsSub (str "images/images/") q = false)
    (hk : ∀ k, k < 14 → 0 < k → (str "images/images/").take k <:+ q → k = 7)
    (hrest : containsSub (str "images/images/") rest = false) :
    containsSub (str "images/images/") (q ++ stripImages rest) = false := by
  by_contra hcon
  rw [Bool.not_eq_false] at hcon
  rcases containsSub_append _ _ _ hcon with h | h | ⟨k, hk0, hklt, hsfx, hpre⟩
  · rw [hq] at h; exact absurd h (by simp)
  · rw [containsSub_suffix _ _ _ (stripImages_suffix rest) h] at hrest
    exact absurd hrest (by simp)
  · have hk14 : k < 14 := by
      have hlen : (str "images/images/").length = 14 := rfl
      omega
    have hk7 : k = 7 := hk k hk14 hk0 hsfx
    subst hk7
    rw [show (str "images/images/").drop 7 = str "images/" from rfl] at hpre
    unfold stripImages at hpre
    by_cases hs : (str "images/").isPrefixOf rest = true
    · rw [if_pos hs] at hpre
      obtain ⟨u, hu⟩ := (isPrefixOf_iff _ _).mp hs
      obtain ⟨v, hv⟩ := hpre
      have hrest2 : containsSub (str "images/images/") rest = true := by
        apply containsSub_of_startsWith
        rw [isPrefixOf_iff]
        refine ⟨v, ?_⟩
        rw [show str "images/images/" = str "images/" ++ str "images/" from rfl,
          List.append_assoc]
        rw [← hu] at hv ⊢
        rw [show (7 : Nat) = (str "images/").length from rfl, List.drop_left] at hv
        rw [hv]
      rw [hrest2] at hrest
      exact absurd hrest (by simp)
    · rw [if_neg hs] at hpre
      exact hs ((isPrefixOf_iff _ _).mpr hpre)

theorem isInExplore_false_of_not_mem (parts : List String)
    (hx : "explore" ∉ parts) : isInExplore parts = false := by
  unfold isInExplore
  rw [decide_eq_false_iff_not, firstIdx_nonneg]
  exact hx

theorem isInExplore_true_of_mem (parts : List String)
    (hx : "explore" ∈ parts) : isInExplore parts = true := by
  unfold isInExplore
  rw [decide_eq_true_eq, firstIdx_nonneg]
  exact hx

/-- Claim C1: for the input /images/a.png the resolver yields
explore/images/a.png from the root context, images/a.png from the explore
context, ../../images/a.png from the explore/game context, and
../explore/images/a.png from the root game context. -/
theorem c1_scenarios (parts : List String) :
    ("explore" ∉ parts → "game" ∉ parts →
      fixImagePath parts (str "/images/a.png") = str "explore/images/a.png") ∧
    ("explore" ∈ parts → isInExploreGame parts = false →
      fixImagePath parts (str "/images/a.png") = str "images/a.png") ∧
    ("explore" ∈ parts →
      firstIdx "explore" parts < firstIdx "game" parts →
      fixImagePath parts (str "/images/a.png") = str "../../images/a.png") ∧
    ("game" ∈ parts → "explore" ∉ parts →
      fixImagePath parts (str "/images/a.png") = str "../explore/images/a.png") := by
  have h0 : fixImagePath parts (str "/images/a.png")
      = absoluteCase parts (str "images/a.png") :=
    fixImagePath_slash parts (str "images/a.png")
  refine ⟨?_, ?_, ?_, ?_⟩
  · intro hx hg
    have he := isInExplore_false_of_not_mem parts hx
    have hg' : decide (0 ≤ firstIdx "game" parts) = false := by
      rw [decide_eq_false_iff_not, firstIdx_nonneg]; exact hg
    have heg : isInExploreGame parts = false := by
      unfold isInExploreGame; rw [he]; rfl
    have hrg : isInRootGame parts = false := by
      unfold isInRootGame; rw [hg']; rfl
    rw [h0]
    unfold absoluteCase
    rw [if_neg (by simp [heg]), if_neg (by simp [he]), if_neg (by simp [hrg])]
    decide
  · intro hx heg
    have he := isInExplore_true_of_mem parts hx
    rw [h0]
    unfold absoluteCase
    rw [if_neg (by simp [heg]), if_pos he]
    decide
  · intro hx hlt
    have he := isInExplore_true_of_mem parts hx
    have heg : isInExploreGame parts = true := by
      unfold isInExploreGame
      rw [he]
      simp [hlt]
    rw [h0]
    unfold absoluteCase
    rw [if_pos heg]
    decide
  · intro hg hx
    have he := isInExplore_false_of_not_mem parts hx
    have hg' : decide (0 ≤ firstIdx "game" parts) = true := by
      rw [decide_eq_true_eq, firstIdx_nonneg]; exact hg
    have heg : isInExploreGame parts = false := by
      unfold isInExploreGame; rw [he]; rfl
    have hrg : isInRootGame parts = true := by
      unfold isInRootGame; rw [hg', he]; rfl
    rw [h0]
    unfold absoluteCase
    rw [if_neg (by simp [heg]), if_neg (by simp [he]), if_pos hrg]
    decide

/-- Witness for C1 at the four concrete locations of the scenarios. -/
theorem c1_witness :
    ("explore" ∉ ([] : List String) ∧ "game" ∉ ([] : List String) ∧
      fixImagePath [] (str "/images/a.png") = str "explore/images/a.png") ∧
    ("explore" ∈ ["explore"] ∧ isInExploreGame ["explore"] = false ∧
      fixImagePath ["explore"] (str "/images/a.png") = str "images/a.png") ∧
    ("explore" ∈ ["explore", "game"] ∧
      firstIdx "explore" ["explore", "game"] < firstIdx "game" ["explore", "game"] ∧
      fixImagePath ["explore", "game"] (str "/images/a.png") = str "../../images/a.png") ∧
    ("game" ∈ ["game"] ∧ "explore" ∉ ["game"] ∧
      fixImagePath ["game"] (str "/images/a.png") = str "../explore/images/a.png") :=
  ⟨⟨by decide, by decide, (c1_scenarios []).1 (by decide) (by decide)⟩,
   ⟨by decide, by decide, (c1_scenarios ["explore"]).2.1 (by decide) (by decide)⟩,
   ⟨by decide, by decide, (c1_scenarios ["explore", "game"]).2.2.1 (by decide) (by decide)⟩,
   ⟨by decide, by decide, (c1_scenarios ["game"]).2.2.2 (by decide) (by decide)⟩⟩

/-- Claim C2: scheme prefixed paths are returned unchanged in every context. -/
theorem c2_scheme_identity (parts : List String) (path : List Char)
    (h : (str "http://").isPrefixOf path = true
      ∨ (str "https://").isPrefixOf path = true) :
    fixImagePath parts path = path := by
  rcases h with h | h
  · obtain ⟨t, rfl⟩ := (isPrefixOf_iff _ _).mp h
    exact fixImagePath_http parts t
  · obtain ⟨t, rfl⟩ := (isPrefixOf_iff _ _).mp h
    exact fixImagePath_https parts t

/-- Witness for C2 at a concrete scheme prefixed path. -/
theorem c2_witness :
    (str "http://").isPrefixOf (str "http://x/y.png") = true ∧
    fixImagePath ["explore", "game"] (str "http://x/y.png") = str "http://x/y.png" :=
  ⟨by decide,
   c2_scheme_identity ["explore", "game"] (str "http://x/y.png") (Or.inl (by decide))⟩

/-- Claim C5: the explore plus game classification holds exactly when both
segment names occur with the first game occurrence after the first explore
occurrence; a location with game before explore classifies as plain
explore. -/
theorem c5_classification (parts : List String) :
    (isInExploreGame parts = true ↔
      "explore" ∈ parts ∧ "game" ∈ parts ∧
        firstIdx "explore" parts < firstIdx "game" parts) ∧
    ("game" ∈ parts → "explore" ∈ parts →
      firstIdx "game" parts < firstIdx "explore" parts →
      isInExplore parts = true ∧ isInExploreGame parts = false ∧
        isInRootGame parts = false) := by
  constructor
  · unfold isInExploreGame isInExplore
    simp only [Bool.and_eq_true, decide_eq_true_eq]
    constructor
    · rintro ⟨h1, h2⟩
      have hg : 0 ≤ firstIdx "game" parts := by omega
      exact ⟨(firstIdx_nonneg _ _).mp h1, (firstIdx_nonneg _ _).mp hg, h2⟩
    · rintro ⟨h1, _, h3⟩
      exact ⟨(firstIdx_nonneg _ _).mpr h1, h3⟩
  · intro hg hx hlt
    have he := isInExplore_true_of_mem parts hx
    refine ⟨he, ?_, ?_⟩
    · unfold isInExploreGame
      rw [he, decide_eq_false_iff_not.mpr (by omega : ¬ firstIdx "explore" parts < firstIdx "game" parts)]
      rfl
    · unfold isInRootGame
      rw [he]
      simp

/-- Witness for C5 at a location listing game before explore. -/
theorem c5_witness :
    "game" ∈ ["game", "explore"] ∧ "explore" ∈ ["game", "explore"] ∧
    firstIdx "game" ["game", "explore"] < firstIdx "explore" ["game", "explore"] ∧
    (isInExplore ["game", "explore"] = true ∧
      isInExploreGame ["game", "explore"] = false ∧
      isInRootGame ["game", "explore"] = false) :=
  ⟨by decide, by decide, by decide,
   (c5_classification ["game", "explore"]).2 (by decide) (by decide) (by decide)⟩

/-- Claim C9: resolution is not idempotent across contexts: a bare path
resolved at the root and re-resolved in the explore context changes. -/
theorem c9_not_idempotent :
    ∃ (p : List Char) (c1 c2 : List String),
      fixImagePath c2 (fixImagePath c1 p) ≠ fixImagePath c1 p :=
  ⟨str "a.png", [], ["explore"], by decide⟩

/-- Counterexample to C3 as stated: the absolute input /images/images/a.png
resolved from the explore context keeps a duplicated images/images/
segment, because the rewrite strips only one redundant images/ prefix. -/
theorem c3_cex :
    (str "/").isPrefixOf (str "/images/images/a.png") = true ∧
    containsSub (str "images/images/")
      (fixImagePath ["explore"] (str "/images/images/a.png")) = true := by
  decide

/-- Claim C3 as amended: for every absolute input the result has no leading
separator, and it contains no duplicated images/images/ segment provided
the input itself contains none. -/
theorem c3_absolute_safe (parts : List String) (path : List Char)
    (h : (str "/").isPrefixOf path = true) :
    (str "/").isPrefixOf (fixImagePath parts path) = false ∧
    (containsSub (str "images/images/") path = false →
      containsSub (str "images/images/") (fixImagePath parts path) = false) := by
  obtain ⟨rest, rfl⟩ := (isPrefixOf_iff _ _).mp h
  have h0 : fixImagePath parts (str "/" ++ rest) = absoluteCase parts rest :=
    fixImagePath_slash parts rest
  rw [h0]
  constructor
  · unfold absoluteCase
    split_ifs <;> rfl
  · intro hdup
    rw [show str "/" ++ rest = '/' :: rest from by rfl] at hdup
    have hrest : containsSub (str "images/images/") rest = false := by
      have h1 : (str "images/images/").isPrefixOf ('/' :: rest) = false := by rfl
      simpa [containsSub, h1] using hdup
    unfold absoluteCase
    split_ifs
    · exact noDup_helper (str "../../images/") rest (by decide) (by decide) hrest
    · exact noDup_helper (str "images/") rest (by decide) (by decide) hrest
    · exact noDup_helper (str "../explore/images/") rest (by decide) (by decide) hrest
    · exact noDup_helper (str "explore/images/") rest (by decide) (by decide) hrest

/-- Witness for the amended C3 at a concrete absolute path and context. -/
theorem c3_witness :
    (str "/").isPrefixOf (str "/images/a.png") = true ∧
    containsSub (str "images/images/") (str "/images/a.png") = false ∧
    (str "/").isPrefixOf (fixImagePath [] (str "/images/a.png")) = false ∧
    containsSub (str "images/images/") (fixImagePath [] (str "/images/a.png")) = false :=
  ⟨by decide, by decide,
   (c3_absolute_safe [] (str "/images/a.png") (by decide)).1,
   (c3_absolute_safe [] (str "/images/a.png") (by decide)).2 (by decide)⟩

theorem fixImagePath_bare (parts : List String) (path : List Char)
    (h1 : (str "http://").isPrefixOf path = false)
    (h2 : (str "https://").isPrefixOf path = false)
    (h3 : (str "/").isPrefixOf path = false)
    (h4 : (str "../").isPrefixOf path = false)
    (h5 : (str "./").isPrefixOf path = false) :
    fixImagePath parts path = bareCase parts path := by
  unfold fixImagePath
  rw [h1, h2, h3, h4, h5]
  simp

/-- Counterexample to C4 as stated: images/a.png is a bare relative path in
the sense of the claim, the context is the explore context, yet no
images/ prefix is prepended because the code also excludes paths that
already begin with images/. -/
theorem c4_cex :
    isInExplore ["explore"] = true ∧ isInExploreGame ["explore"] = false ∧
    (str "http://").isPrefixOf (str "images/a.png") = false ∧
    (str "https://").isPrefixOf (str "images/a.png") = false ∧
    (str "/").isPrefixOf (str "images/a.png") = false ∧
    (str "../").isPrefixOf (str "images/a.png") = false ∧
    (str "./").isPrefixOf (str "images/a.png") = false ∧
    fixImagePath ["explore"] (str "images/a.png") ≠ str "images/" ++ str "images/a.png" := by
  decide

theorem isInExploreGame_false_of_explore_false (parts : List String)
    (he : isInExplore parts = false) : isInExploreGame parts = false := by
  unfold isInExploreGame
  rw [he]
  rfl

/-- Claim C4 as amended: a bare relative path that moreover does not begin
with images/ receives the context prefix exactly when the context is
explore or explore plus game and passes through unchanged otherwise; a
bare relative path beginning with images/ passes through unchanged in
every context. -/
theorem c4_bare_relative (parts : List String) (path : List Char)
    (h1 : (str "http://").isPrefixOf path = false)
    (h2 : (str "https://").isPrefixOf path = false)
    (h3 : (str "/").isPrefixOf path = false)
    (h4 : (str "../").isPrefixOf path = false)
    (h5 : (str "./").isPrefixOf path = false) :
    ((str "images/").isPrefixOf path = false →
      (isInExplore parts = true → isInExploreGame parts = false →
        fixImagePath parts path = str "images/" ++ path) ∧
      (isInExploreGame parts = true →
        fixImagePath parts path = str "../../images/" ++ path) ∧
      (isInExplore parts = false → fixImagePath parts path = path)) ∧
    ((str "images/").isPrefixOf path = true → fixImagePath parts path = path) := by
  have h0 := fixImagePath_bare parts path h1 h2 h3 h4 h5
  rw [h0]
  unfold bareCase
  constructor
  · intro himg
    rw [h4, himg]
    refine ⟨?_, ?_, ?_⟩
    · intro he heg
      rw [he, heg]
      simp
    · intro heg
      have he : isInExplore parts = true := by
        unfold isInExploreGame at heg
        exact (Bool.and_eq_true _ _ |>.mp heg).1
      rw [he, heg]
      simp
    · intro he
      have heg := isInExploreGame_false_of_explore_false parts he
      rw [he, heg]
      simp
  · intro himg
    rw [h4, himg]
    simp

/-- Witness for the amended C4 at a concrete bare path, both context kinds. -/
theorem c4_witness :
    (str "http://").isPrefixOf (str "a.png") = false ∧
    (str "https://").isPrefixOf (str "a.png") = false ∧
    (str "/").isPrefixOf (str "a.png") = false ∧
    (str "../").isPrefixOf (str "a.png") = false ∧
    (str "./").isPrefixOf (str "a.png") = false ∧
    (str "images/").isPrefixOf (str "a.png") = false ∧
    isInExplore ["explore"] = true ∧ isInExploreGame ["explore"] = false ∧
    fixImagePath ["explore"] (str "a.png") = str "images/" ++ str "a.png" ∧
    (str "images/").isPrefixOf (str "images/b.png") = true ∧
    fixImagePath ["explore"] (str "images/b.png") = str "images/b.png" :=
  ⟨by decide, by decide, by decide, by decide, by decide, by decide, by decide, by decide,
   ((c4_bare_relative ["explore"] (str "a.png") (by decide) (by decide) (by decide)
      (by decide) (by decide)).1 (by decide)).1 (by decide) (by decide),
   by decide,
   (c4_bare_relative ["explore"] (str "images/b.png") (by decide) (by decide) (by decide)
      (by decide) (by decide)).2 (by decide)⟩

/-- Counterexample to C6 as stated: the two fixImagePath variants disagree
on the bare relative input a.png in the explore context. -/
theorem c6_cex :
    fixImagePath ["explore"] (str "a.png")
      ≠ Part000.fixImagePath ["explore"] (str "a.png") := by
  decide

/-- Claim C6 as amended: the two path rewriting functions agree on every
scheme prefixed input and on every input beginning with ../ for every
document location; they disagree on other inputs. -/
theorem c6_partial_agreement (parts : List String) (path : List Char)
    (h : (str "http://").isPrefixOf path = true
      ∨ (str "https://").isPrefixOf path = true
      ∨ (str "../").isPrefixOf path = true) :
    fixImagePath parts path = Part000.fixImagePath parts path := by
  rcases h with h | h | h <;> obtain ⟨t, rfl⟩ := (isPrefixOf_iff _ _).mp h
  · rw [fixImagePath_http, part000_http]
  · rw [fixImagePath_https, part000_https]
  · rw [fixImagePath_dotdot, part000_dotdot]

/-- Witness for the amended C6 at a concrete already relative path. -/
theorem c6_witness :
    (str "../").isPrefixOf (str "../x.png") = true ∧
    fixImagePath ["game"] (str "../x.png") = Part000.fixImagePath ["game"] (str "../x.png") :=
  ⟨by decide,
   c6_partial_agreement ["game"] (str "../x.png") (Or.inr (Or.inr (by decide)))⟩

/-- Counterexample to C7 as stated: the original path httpx.png differs
from its resolved form in the explore context, yet the error handler makes
no assignment at all, because the code also requires the original path not
to begin with http. -/
theorem c7_cex :
    str "httpx.png" ≠ fixImagePath ["explore"] (str "httpx.png") ∧
    onError (str "httpx.png") (fixImagePath ["explore"] (str "httpx.png")) = [] := by
  decide

/-- Claim C7 as amended: the error handler retries with the original path
whenever it differs from the attempted path and does not begin with http;
every assignment it makes is either the original path or the explore
fallback, and the fallback only arises for originals beginning with
/images/. -/
theorem c7_retry_policy (o f : List Char) :
    (o ≠ f → (str "http").isPrefixOf o = false → onError o f = [o]) ∧
    (∀ a ∈ onError o f, a = o ∨
      (a = str "explore" ++ o ∧ (str "/images/").isPrefixOf o = true)) := by
  constructor
  · intro hne hh
    unfold onError
    rw [if_pos ⟨hne, hh⟩]
  · intro a ha
    unfold onError at ha
    split_ifs at ha with hc1 hc2 hc3
    · left
      simpa using ha
    · simp at ha
    · right
      exact ⟨by simpa using ha, hc2⟩
    · simp at ha

/-- Witness for the amended C7 at a concrete differing pair of paths. -/
theorem c7_witness :
    str "/images/a.png" ≠ str "explore/images/a.png" ∧
    (str "http").isPrefixOf (str "/images/a.png") = false ∧
    onError (str "/images/a.png") (str "explore/images/a.png") = [str "/images/a.png"] :=
  ⟨by decide, by decide,
   (c7_retry_policy (str "/images/a.png") (str "explore/images/a.png")).1
     (by decide) (by decide)⟩

theorem processImg_of_loaded (parts : List String) (img : Img)
    (h : img.dataLoaded = some (str "true")) : processImg parts img = img := by
  unfold processImg
  rw [if_pos h]

/-- Claim C8: after one run of loadAllImages, every element with the marker
attribute, a non empty declared path and a loaded flag not yet true has
its src set to the resolved path, its styles made visible and its loaded
flag set to true. -/
theorem c8_load_contract (parts : List String) (doc : List Img) (i : Nat)
    (h : i < doc.length) (h2 : i < (loadAllImages parts doc).length)
    (p : List Char) (hp : doc[i].dataLoad = some p) (hne : p ≠ [])
    (hl : doc[i].dataLoaded ≠ some (str "true")) :
    (loadAllImages parts doc)[i].src = some (fixImagePath parts p) ∧
    (loadAllImages parts doc)[i].display = some (str "block") ∧
    (loadAllImages parts doc)[i].visibility = some (str "visible") ∧
    (loadAllImages parts doc)[i].opacity = some (str "1") ∧
    (loadAllImages parts doc)[i].dataLoaded = some (str "true") := by
  have hel : (loadAllImages parts doc)[i] = loadOne parts doc[i] := by
    simp [loadAllImages]
  rw [hel]
  unfold loadOne
  rw [hp]
  simp only [Option.isSome_some, if_true]
  unfold processImg
  rw [if_neg hl, hp]
  simp [hne]

/-- Witness for C8 on a one element document with a fresh marked element. -/
theorem c8_witness :
    (0 : Nat) < ([⟨some (str "/images/a.png"), none, none, none, none, none⟩] : List Img).length ∧
    (0 : Nat) < (loadAllImages [] [⟨some (str "/images/a.png"), none, none, none, none, none⟩]).length ∧
    ([⟨some (str "/images/a.png"), none, none, none, none, none⟩] : List Img)[0].dataLoad
      = some (str "/images/a.png") ∧
    str "/images/a.png" ≠ ([] : List Char) ∧
    ([⟨some (str "/images/a.png"), none, none, none, none, none⟩] : List Img)[0].dataLoaded
      ≠ some (str "true") ∧
    ((loadAllImages [] [⟨some (str "/images/a.png"), none, none, none, none, none⟩])[0].src
        = some (fixImagePath [] (str "/images/a.png")) ∧
      (loadAllImages [] [⟨some (str "/images/a.png"), none, none, none, none, none⟩])[0].display
        = some (str "block") ∧
      (loadAllImages [] [⟨some (str "/images/a.png"), none, none, none, none, none⟩])[0].visibility
        = some (str "visible") ∧
      (loadAllImages [] [⟨some (str "/images/a.png"), none, none, none, none, none⟩])[0].opacity
        = some (str "1") ∧
      (loadAllImages [] [⟨some (str "/images/a.png"), none, none, none, none, none⟩])[0].dataLoaded
        = some (str "true")) :=
  ⟨by decide, by decide, by decide, by decide, by decide,
   c8_load_contract [] [⟨some (str "/images/a.png"), none, none, none, none, none⟩] 0
     (by decide) (by decide) (str "/images/a.png") (by decide) (by decide) (by decide)⟩

theorem processImg_dataLoad (parts : List String) (img : Img) :
    (processImg parts img).dataLoad = img.dataLoad := by
  unfold processImg
  split
  · rfl
  · split
    · rfl
    · split
      · rfl
      · rfl

theorem processImg_idem (parts : List String) (img : Img) :
    processImg parts (processImg parts img) = processImg parts img := by
  by_cases hl : img.dataLoaded = some (str "true")
  · have h1 := processImg_of_loaded parts img hl
    rw [h1]
    exact h1
  · rcases hd : img.dataLoad with _ | p
    · have h1 : processImg parts img = img := by
        unfold processImg
        rw [if_neg hl, hd]
      rw [h1]
      exact h1
    · by_cases hp : p = []
      · have h1 : processImg parts img = img := by
          unfold processImg
          rw [if_neg hl, hd]
          simp [hp]
        rw [h1]
        exact h1
      · have h1 : (processImg parts img).dataLoaded = some (str "true") := by
          unfold processImg
          rw [if_neg hl, hd]
          simp [hp]
        exact processImg_of_loaded parts _ h1

theorem loadOne_idem (parts : List String) (img : Img) :
    loadOne parts (loadOne parts img) = loadOne parts img := by
  by_cases hs : img.dataLoad.isSome = true
  · have h1 : loadOne parts img = processImg parts img := by
      unfold loadOne
      rw [if_pos hs]
    rw [h1]
    have hs2 : (processImg parts img).dataLoad.isSome = true := by
      rw [processImg_dataLoad]
      exact hs
    unfold loadOne
    rw [if_pos hs2]
    exact processImg_idem parts img
  · have h1 : loadOne parts img = img := by
      unfold loadOne
      rw [if_neg hs]
    rw [h1, h1]

/-- Claim C10: elements whose loaded flag is already true are left
untouched, and re-running loadAllImages on the output of a previous run
with the same location changes nothing. -/
theorem c10_skip_loaded (parts : List String) (doc : List Img) :
    (∀ i, ∀ _ : i < doc.length, ∀ _ : i < (loadAllImages parts doc).length,
      doc[i].dataLoaded = some (str "true") →
      (loadAllImages parts doc)[i] = doc[i]) ∧
    loadAllImages parts (loadAllImages parts doc) = loadAllImages parts doc := by
  constructor
  · intro i h h2 hl
    have hel : (loadAllImages parts doc)[i] = loadOne parts doc[i] := by
      simp [loadAllImages]
    rw [hel]
    unfold loadOne
    split
    · exact processImg_of_loaded parts _ hl
    · rfl
  · unfold loadAllImages
    rw [List.map_map]
    apply List.map_congr_left
    intro a _
    exact loadOne_idem parts a

/-- Witness for C10 on a one element document already flagged loaded. -/
theorem c10_witness :
    ([⟨some (str "b.png"), some (str "true"), some (str "x.png"), none, none, none⟩] : List Img)[0].dataLoaded
      = some (str "true") ∧
    (loadAllImages ["explore"] [⟨some (str "b.png"), some (str "true"), some (str "x.png"), none, none, none⟩])[0]
      = ([⟨some (str "b.png"), some (str "true"), some (str "x.png"), none, none, none⟩] : List Img)[0] ∧
    loadAllImages ["explore"]
        (loadAllImages ["explore"] [⟨some (str "b.png"), some (str "true"), some (str "x.png"), none, none, none⟩])
      = loadAllImages ["explore"] [⟨some (str "b.png"), some (str "true"), some (str "x.png"), none, none, none⟩] :=
  ⟨by decide,
   (c10_skip_loaded ["explore"]
      [⟨some (str "b.png"), some (str "true"), some (str "x.png"), none, none, none⟩]).1
     0 (by decide) (by decide) (by decide),
   (c10_skip_loaded ["explore"]
      [⟨some (str "b.png"), some (str "true"), some (str "x.png"), none, none, none⟩]).2⟩
